import Mathlib

/-!
Shallow embedding of the scoutfs crawl tool
(`utils/status/scoutfs_status/cmd_crawl.py`, helpers from
`utils/status/scoutfs_status/util.py`).

Modelling conventions:
* A filesystem entry is a value of `FSNode`; symbolic links are a separate
  constructor because the source tests `is_symlink()` first and skips them.
* Names obtained from the OS are `RawName`s: `strict` is the result of the
  strict UTF-8 round trip performed by `handle_unicode` (`none` when the name
  has invalid byte sequences and `f.encode('utf-8')` raises), `lossy` is the
  result of the `errors='replace'` fallback.
* OS level failures are modelled by boolean fields on the nodes:
  `statFails` (an `os.stat`/`DirEntry.stat` call raises `OSError`),
  `scanFails` (the `os.scandir` call on a directory raises `OSError`).
* The uid/gid to display-name resolution of `get_owner_name`/`get_group_name`
  (the memoised name cache) is abstracted: records store the numeric ids.
  Likewise `str(st_ino)` and the ISO-8601 rendering of the timestamps are
  kept as numbers, and wall-clock upload timing (`bulktime`) is not modelled.
* Elasticsearch uploads (`begin_bulk` / `elastic.bulk_upload`) are modelled
  by recording each flushed batch in `WState.flushes`.
-/

/-- Name as handed out by the OS: the strict UTF-8 decoding when it exists
and the lossy (`errors='replace'`) decoding. -/
structure RawName where
  strict : Option String
  lossy : String
deriving DecidableEq, Repr

/-- Fields of a successful `stat` call that the crawler reads. -/
structure StatInfo where
  uid : Nat
  gid : Nat
  nlink : Nat
  ino : Nat
  mtime : Int
  atime : Int
  ctime : Int
deriving DecidableEq, Repr

/-- One filesystem entry as enumerated by `os.scandir`.  For a directory,
`name`/`parent`/`selfPath` are the raw basename, dirname and full path used
by `get_dir_name`, `get_parent_path` and as `parent_path` of its children. -/
inductive FSNode : Type where
  | symlink : FSNode
  | file (name : RawName) (size : Nat) (blocks : Nat) (st : StatInfo)
      (statFails : Bool) : FSNode
  | dir (name : RawName) (parent : RawName) (selfPath : RawName)
      (st : StatInfo) (statFails : Bool) (scanFails : Bool)
      (children : List FSNode) : FSNode

/-- Document type tag (`'type': 'file' | 'directory'`). -/
inductive RecType : Type where
  | file : RecType
  | directory : RecType
deriving DecidableEq, Repr

/-- One Elasticsearch document built by `get_tree_attr`.  File documents
carry `file_count = dir_count = 0` and directory documents carry
`extension = ""`, mirroring the keys absent from the corresponding Python
dicts. -/
structure Record where
  rtype : RecType
  size : Nat
  size_du : Nat
  owner : Nat
  group : Nat
  name : String
  nlink : Nat
  ino : Nat
  parent_path : String
  extension : String
  file_count : Nat
  dir_count : Nat
  mtime : Int
  atime : Int
  ctime : Int
deriving DecidableEq, Repr

/-- The 4-tuple `(size, size_du, files, dirs)` returned by `get_tree_attr`. -/
structure Agg where
  size : Nat
  size_du : Nat
  files : Nat
  dirs : Nat
deriving DecidableEq, Repr

/-- Configuration read at module load: `blocksize` and
`elastic_chunksize`. -/
structure Config where
  blocksize : Nat
  chunksize : Nat
deriving DecidableEq, Repr

/-- Worker-visible mutable state: the worker's local `documents` batch, the
sequence of batches uploaded so far, the global `warnings` counter and the
per-root counter dictionaries (`dircount[root]`, `filecount[root]`, ...).
`dircount`/`filecount` are `Int` because the source adds the signed
quantities `d_count - dir_skip_count` / `f_count - file_skip_count`. -/
structure WState where
  documents : List Record
  flushes : List (List Record)
  warnings : Nat
  dircount : Int
  filecount : Int
  inodecount : Nat
  skipdircount : Nat
  skipfilecount : Nat
  total_documents : Nat
deriving DecidableEq, Repr

/-- Local variables of one `get_tree_attr` invocation while its
`os.scandir` loop runs. -/
structure LoopState where
  size : Nat
  size_du : Nat
  files : Nat
  dirs : Nat
  f_count : Nat
  d_count : Nat
  file_skip_count : Nat
  total_docs : Nat
  parent_path : Option String
  ws : WState
deriving DecidableEq, Repr

/-- Result of one `get_tree_attr` invocation: the returned aggregate, the
updated shared state, and — for the `depth == 0` frame only — the record
stored into `sizes[root]`. -/
structure TreeResult where
  agg : Agg
  ws : WState
  rollup : Option Record
deriving DecidableEq, Repr

/-- Result of the `os.scandir` loop: the final loop locals and whether the
loop was aborted by an `OSError` from a child `stat`. -/
structure ScanResult where
  ls : LoopState
  errored : Bool
deriving DecidableEq, Repr

/-- Embedding of `util.handle_unicode`: strict decoding unless
`ignore_errors`, in which case the lossy (`errors='replace'`) decoding. -/
def handle_unicode (f : RawName) (ignore_errors : Bool) : Option String :=
  if ignore_errors then some f.lossy else f.strict

/-- Embedding of `pathlib.Path(name).suffix`: the substring from the last
dot, provided it is neither the first nor past the last character. -/
def pathSuffix (s : String) : String :=
  let l := s.toList
  match ((List.range l.length).filter (fun i => l.getD i ' ' = '.')).getLast? with
  | some i => if 0 < i ∧ i < l.length - 1 then String.mk (l.drop i) else ""
  | none => ""

/-- Embedding of the per-record batching step (`documents.append(...)`
followed by the chunk-size flush check in `get_tree_attr`): returns the new
local batch, the new upload sequence, and the number of documents flushed
(0 when no flush was triggered). -/
def emit_record (chunksize : Nat) (r : Record) (documents : List Record)
    (flushes : List (List Record)) : List Record × List (List Record) × Nat :=
  let docs := documents ++ [r]
  if chunksize ≤ docs.length then
    ([], flushes ++ [docs], docs.length)
  else
    (docs, flushes, 0)

/-- Embedding of the counter merge at the end of a `get_tree_attr` frame
(the `with crawl_lock` block updating the per-root dictionaries). -/
def apply_counters (ws : WState) (total_docs : Nat) (dir_skip_count : Nat)
    (d_count : Nat) (f_count : Nat) (file_skip_count : Nat) : WState :=
  { ws with
    total_documents := ws.total_documents + total_docs,
    skipdircount := ws.skipdircount + dir_skip_count,
    inodecount := ws.inodecount + d_count + f_count,
    skipfilecount := ws.skipfilecount + file_skip_count,
    dircount := ws.dircount + (d_count : Int) - (dir_skip_count : Int),
    filecount := ws.filecount + (f_count : Int) - (file_skip_count : Int) }

/-- Fresh loop locals at the top of a `get_tree_attr` frame. -/
def init_loop (ws : WState) : LoopState :=
  { size := 0, size_du := 0, files := 0, dirs := 0, f_count := 0, d_count := 0,
    file_skip_count := 0, total_docs := 0, parent_path := none, ws := ws }

/-- Embedding of the tail of a `get_tree_attr` frame after its scandir loop
finished without `OSError`: the `files > 0 or dirs > 0` record/skip decision
followed by the counter merge and the `return size, size_du, files, dirs`. -/
def frame_finish (cfg : Config) (depth : Nat) (st : StatInfo)
    (nameR parentR : RawName) (ls : LoopState) : TreeResult :=
  if ls.files > 0 ∨ ls.dirs > 0 then
    let dec : String × String × Nat :=
      match handle_unicode nameR false, handle_unicode parentR false with
      | some fn, some pp => (fn, pp, ls.ws.warnings)
      | some _, none => ((handle_unicode nameR true).getD nameR.lossy,
          (handle_unicode parentR true).getD parentR.lossy, ls.ws.warnings + 1)
      | none, _ => ((handle_unicode nameR true).getD nameR.lossy,
          (handle_unicode parentR true).getD parentR.lossy, ls.ws.warnings + 1)
    let data : Record :=
      { rtype := RecType.directory, size := ls.size, size_du := ls.size_du,
        owner := st.uid, group := st.gid, name := dec.1, nlink := st.nlink,
        ino := st.ino, parent_path := dec.2.1, extension := "",
        file_count := ls.files, dir_count := ls.dirs + 1,
        mtime := st.mtime, atime := st.atime, ctime := st.ctime }
    if 0 < depth then
      let e := emit_record cfg.chunksize data ls.ws.documents ls.ws.flushes
      let ws2 := { ls.ws with documents := e.1, flushes := e.2.1, warnings := dec.2.2 }
      let ws3 := apply_counters ws2 (ls.total_docs + e.2.2) 0 ls.d_count
        ls.f_count ls.file_skip_count
      { agg := ⟨ls.size, ls.size_du, ls.files, ls.dirs⟩, ws := ws3, rollup := none }
    else
      let ws2 := { ls.ws with warnings := dec.2.2 }
      let ws3 := apply_counters ws2 ls.total_docs 0 ls.d_count
        ls.f_count ls.file_skip_count
      { agg := ⟨ls.size, ls.size_du, ls.files, ls.dirs⟩, ws := ws3, rollup := some data }
  else
    let dirs2 := if 0 < ls.dirs then ls.dirs - 1 else ls.dirs
    let ws3 := apply_counters ls.ws ls.total_docs 1 ls.d_count
      ls.f_count ls.file_skip_count
    { agg := ⟨ls.size, ls.size_du, ls.files, dirs2⟩, ws := ws3, rollup := none }

/-- Embedding of the body of the scandir loop for one regular non-symlink
file entry whose `stat` succeeded (`f_count` already incremented by the
caller): the `fsize > 0` record construction with the cached-`parent_path`
unicode handling, or the `file_skip_count` bump. -/
def file_step (cfg : Config) (selfR : RawName) (fnameR : RawName)
    (fsize : Nat) (fblocks : Nat) (fst : StatInfo) (ls : LoopState) : LoopState :=
  let fsize_du := fblocks * cfg.blocksize
  if 0 < fsize then
    let ls2 := { ls with
      size := ls.size + fsize, size_du := ls.size_du + fsize_du,
      files := ls.files + 1 }
    let dec : String × String × Nat :=
      match ls2.parent_path with
      | some pp =>
        match handle_unicode fnameR false with
        | some fn => (pp, fn, 0)
        | none => (pp, (handle_unicode fnameR true).getD fnameR.lossy, 1)
      | none =>
        match handle_unicode selfR false with
        | some pp =>
          match handle_unicode fnameR false with
          | some fn => (pp, fn, 0)
          | none => (pp, (handle_unicode fnameR true).getD fnameR.lossy, 1)
        | none => ((handle_unicode selfR true).getD selfR.lossy,
            (handle_unicode fnameR true).getD fnameR.lossy, 1)
    let data : Record :=
      { rtype := RecType.file, size := fsize, size_du := fsize_du,
        owner := fst.uid, group := fst.gid, name := dec.2.1, nlink := fst.nlink,
        ino := fst.ino, parent_path := dec.1,
        extension := pathSuffix fnameR.lossy,
        file_count := 0, dir_count := 0,
        mtime := fst.mtime, atime := fst.atime, ctime := fst.ctime }
    let e := emit_record cfg.chunksize data ls2.ws.documents ls2.ws.flushes
    { ls2 with
      parent_path := some dec.1,
      total_docs := ls2.total_docs + e.2.2,
      ws := { ls2.ws with
        documents := e.1, flushes := e.2.1,
        warnings := ls2.ws.warnings + dec.2.2 } }
  else
    { ls with file_skip_count := ls.file_skip_count + 1 }

mutual

/-- Embedding of `get_tree_attr` (cmd_crawl.py lines 141-296). -/
def get_tree_attr (cfg : Config) (maxdepth : Nat) (q : Bool) (node : FSNode)
    (depth : Nat) (ws : WState) : TreeResult :=
  match node with
  | FSNode.symlink => { agg := ⟨0, 0, 0, 0⟩, ws := ws, rollup := none }
  | FSNode.file _ _ _ _ _ => { agg := ⟨0, 0, 0, 0⟩, ws := ws, rollup := none }
  | FSNode.dir nameR parentR selfR st statFails scanFails children =>
    if statFails then
      { agg := ⟨0, 0, 0, 0⟩, ws := { ws with warnings := ws.warnings + 1 },
        rollup := none }
    else if scanFails then
      { agg := ⟨0, 0, 0, 0⟩, ws := { ws with warnings := ws.warnings + 1 },
        rollup := none }
    else
      let r := scan_children cfg maxdepth q depth selfR children (init_loop ws)
      if r.errored then
        { agg := ⟨r.ls.size, r.ls.size_du, r.ls.files, r.ls.dirs⟩,
          ws := { r.ls.ws with warnings := r.ls.ws.warnings + 1 },
          rollup := none }
      else
        frame_finish cfg depth st nameR parentR r.ls
termination_by sizeOf node
decreasing_by all_goals simp_wf

/-- Embedding of the `for content in os.scandir(path)` loop of
`get_tree_attr`, processing the remaining entries from the given loop
locals. -/
def scan_children (cfg : Config) (maxdepth : Nat) (q : Bool) (depth : Nat)
    (selfR : RawName) (children : List FSNode) (ls : LoopState) : ScanResult :=
  match children with
  | [] => { ls := ls, errored := false }
  | c :: rest =>
    match c with
    | FSNode.symlink => scan_children cfg maxdepth q depth selfR rest ls
    | FSNode.file fnameR fsize fblocks fst fstatFails =>
      let ls1 := { ls with f_count := ls.f_count + 1 }
      if fstatFails then
        { ls := ls1, errored := true }
      else
        scan_children cfg maxdepth q depth selfR rest
          (file_step cfg selfR fnameR fsize fblocks fst ls1)
    | FSNode.dir dn dp dsp dst dsf dscf dch =>
      let ls1 := { ls with d_count := ls.d_count + 1, dirs := ls.dirs + 1 }
      if 0 < maxdepth ∧ depth < maxdepth ∧ ¬q then
        let res := get_tree_attr cfg maxdepth q
          (FSNode.dir dn dp dsp dst dsf dscf dch) (depth + 1) ls1.ws
        let ls2 := { ls1 with
          size := ls1.size + res.agg.size
          size_du := ls1.size_du + res.agg.size_du
          files := ls1.files + res.agg.files
          dirs := ls1.dirs + res.agg.dirs
          ws := res.ws }
        scan_children cfg maxdepth q depth selfR rest ls2
      else
        scan_children cfg maxdepth q depth selfR rest ls1
termination_by sizeOf children
decreasing_by all_goals simp_wf <;> omega

end

/-- One iteration of the `os.scandir` loop of `get_tree_attr`, factored out
of `scan_children` for reasoning: processing a single directory entry. -/
def scan_step (cfg : Config) (maxdepth : Nat) (q : Bool) (depth : Nat)
    (selfR : RawName) (c : FSNode) (ls : LoopState) : ScanResult :=
  match c with
  | FSNode.symlink => { ls := ls, errored := false }
  | FSNode.file fnameR fsize fblocks fst fstatFails =>
    let ls1 := { ls with f_count := ls.f_count + 1 }
    if fstatFails then
      { ls := ls1, errored := true }
    else
      { ls := file_step cfg selfR fnameR fsize fblocks fst ls1, errored := false }
  | FSNode.dir dn dp dsp dst dsf dscf dch =>
    let ls1 := { ls with d_count := ls.d_count + 1, dirs := ls.dirs + 1 }
    if 0 < maxdepth ∧ depth < maxdepth ∧ ¬q then
      let res := get_tree_attr cfg maxdepth q
        (FSNode.dir dn dp dsp dst dsf dscf dch) (depth + 1) ls1.ws
      { ls := { ls1 with
          size := ls1.size + res.agg.size,
          size_du := ls1.size_du + res.agg.size_du,
          files := ls1.files + res.agg.files,
          dirs := ls1.dirs + res.agg.dirs,
          ws := res.ws },
        errored := false }
    else
      { ls := ls1, errored := false }

/-- Embedding of the remainder flush at the top of `crawl_thread` after
`get_tree_attr` returns (cmd_crawl.py lines 312-317). -/
def flush_remainder (ws : WState) : WState :=
  if 0 < ws.documents.length then
    { ws with
      flushes := ws.flushes ++ [ws.documents],
      total_documents := ws.total_documents + ws.documents.length,
      documents := [] }
  else ws

/-- Embedding of the `sizes[root]` merge performed by `crawl_thread` for a
first-level subtree (cmd_crawl.py lines 329-332). -/
def merge_rollup (r : Record) (a : Agg) : Record :=
  { r with
    size := r.size + a.size,
    size_du := r.size_du + a.size_du,
    dir_count := r.dir_count + a.dirs,
    file_count := r.file_count + a.files }

/-- Embedding of `crawl_thread` (cmd_crawl.py lines 299-338).  The worker
starts with an empty local `documents` list; `rollup` is the current
`sizes[root]` entry.  The result is `none` when the thread raises an
uncaught exception (the `sizes[root]` `KeyError` when no baseline entry
exists), which the pool loop in `crawl` turns into a critical abort.
The write of `sizes[top]` for a subtree top (read back only by the merge
immediately following it) is inlined. -/
def crawl_thread (cfg : Config) (maxdepth : Nat) (node : FSNode) (depth : Nat)
    (rollup : Option Record) (sh : WState) : Option (Option Record × WState) :=
  let res := get_tree_attr cfg maxdepth false node depth { sh with documents := [] }
  let ws2 := flush_remainder res.ws
  if 0 < depth then
    if 0 < res.agg.size then
      match rollup with
      | some r => some (some (merge_rollup r res.agg), ws2)
      | none => none
    else some (rollup, ws2)
  else
    some (res.rollup, ws2)

/-- Embedding of the subdirectory work list built by `crawl`
(cmd_crawl.py lines 346-351): immediate children of the root that are
directories and not symlinks. -/
def subdir_list (root : FSNode) : List FSNode :=
  match root with
  | FSNode.dir _ _ _ _ _ _ children =>
    children.filter (fun c => match c with
      | FSNode.dir _ _ _ _ _ _ _ => true
      | _ => false)
  | _ => []

/-- Counter state established by `scan` before crawling
(cmd_crawl.py lines 463-469; the module-level `warnings = 0`). -/
def scan_init_state : WState :=
  { documents := [], flushes := [], warnings := 0, dircount := 1,
    filecount := 0, inodecount := 0, skipdircount := 0, skipfilecount := 0,
    total_documents := 0 }

/-- Merge phase of `crawl`: the first-level subtree tasks complete in the
order given by `completed`, each one running `crawl_thread` at depth 1
(cmd_crawl.py lines 361-367).  A `none` accumulator records a critical
abort. -/
def crawl_merge (cfg : Config) (maxdepth : Nat) (completed : List FSNode)
    (acc : Option (Option Record × WState)) : Option (Option Record × WState) :=
  completed.foldl
    (fun acc sub =>
      match acc with
      | none => none
      | some (r, sh) => crawl_thread cfg maxdepth sub 1 r sh) acc

/-- Embedding of `crawl` up to the pool join (cmd_crawl.py lines 341-367):
the depth-0 baseline pass over the root itself (submitted with
`maxdepth = 0`), then one depth-1 task per immediate subdirectory, with
`completed` giving the order in which the tasks finish. -/
def crawl (cfg : Config) (maxdepth : Nat) (root : FSNode)
    (completed : List FSNode) : Option (Option Record × WState) :=
  crawl_merge cfg maxdepth completed
    (crawl_thread cfg 0 root 0 none scan_init_state)

/-- Outcome of the completion logic of `crawl` after the pool joins
(cmd_crawl.py lines 372-400). -/
structure FinalOutcome where
  emptyindex : Bool
  rootWritten : Bool
  countQueried : Bool
  indexDeleted : Bool
  endRecordWritten : Bool
deriving DecidableEq, Repr

/-- Embedding of the completion logic of `crawl` (cmd_crawl.py lines
372-400): `rollup` is the final `sizes` entry for the root, `backendCount`
the document count the `es.count` query would report. -/
def crawl_finalize (rollup : Option Record) (backendCount : Nat) : FinalOutcome :=
  match rollup with
  | none =>
    { emptyindex := true, rootWritten := false, countQueried := true,
      indexDeleted := backendCount = 0, endRecordWritten := false }
  | some _ =>
    { emptyindex := false, rootWritten := true, countQueried := false,
      indexDeleted := false, endRecordWritten := true }

/-- Exit code computed by `exit_app` (cmd_crawl.py lines 61-73). -/
def exit_app_code (warnings : Nat) : Nat :=
  if warnings > 0 then 78 else 0

/-- Exit code of `exit_app_critical_error` (cmd_crawl.py lines 76-77:
`os._exit(1)`). -/
def exit_app_critical_error_code : Nat := 1

/-- Exit code used for startup/configuration failures before crawling
begins (`sys.exit(1)` in the config loader, the index-name check, the
existing-index check, and `elastic.connection`). -/
def startup_failure_exit_code : Nat := 1

/-- Worker-side batching harness: fold the per-record batching step
`emit_record` over a sequence of emitted records, starting from a local
batch and upload history. -/
def emit_fold (chunksize : Nat) (rs : List Record) (docs : List Record)
    (fls : List (List Record)) : List Record × List (List Record) :=
  rs.foldl (fun st r =>
    let e := emit_record chunksize r st.1 st.2
    (e.1, e.2.1)) (docs, fls)

/-- Batches uploaded by one worker that emits `rs` during its traversal:
the threshold-triggered flushes of `emit_record` followed by the remainder
flush of `crawl_thread`. -/
def worker_flush_all (chunksize : Nat) (rs : List Record) : List (List Record) :=
  let st := emit_fold chunksize rs [] []
  if 0 < st.1.length then st.2 ++ [st.1] else st.2

/-- Fixed marker `'scoutfs-'` required in index names (cmd_crawl.py line 419). -/
def scoutfs_marker : List Char := "scoutfs-".toList

/-- Embedding of the Python substring test `needle in hay`. -/
def substring_in (needle hay : List Char) : Bool :=
  hay.tails.any (fun t => needle.isPrefixOf t)

/-- Index-name validation of `scan` (cmd_crawl.py lines 418-421): execution
is rejected with `sys.exit(1)` when a non-empty index name does not contain
`'scoutfs-'` as a substring (`if index and not 'scoutfs-' in index`). -/
def scan_index_rejected (index : List Char) : Bool :=
  !index.isEmpty && !(substring_in scoutfs_marker index)

/-- Character replacement applied to the path when generating the default
index name (cmd_crawl.py lines 442-445): spaces and slashes become
underscores. -/
def sanitize_char (c : Char) : Char :=
  if c = ' ' then '_' else if c = '/' then '_' else c

/-- Default index name generated when none is supplied (cmd_crawl.py line
446): `'scoutfs' + tree_dir_str.lower().lstrip('_') + '-' + timestamp`. -/
def default_index_name (dir_tree ts : List Char) : List Char :=
  "scoutfs".toList ++
    ((dir_tree.map sanitize_char).map Char.toLower).dropWhile (fun c => c = '_') ++
    ('-' :: ts)

/-- Stream of records a worker has produced so far: everything already
uploaded followed by the pending local batch. -/
def emitted (ws : WState) : List Record :=
  ws.flushes.flatten ++ ws.documents

/-- Effect of one skipped zero-size file on the loop locals. -/
def fbump (ls : LoopState) : LoopState :=
  { ls with f_count := ls.f_count + 1, file_skip_count := ls.file_skip_count + 1 }

/-- Loop locals that do not depend on the worker state threaded through a
frame: the aggregate sums, the entry counters and the cached parent path. -/
def LoopState.core (ls : LoopState) :
    Nat × Nat × Nat × Nat × Nat × Nat × Nat × Option String :=
  (ls.size, ls.size_du, ls.files, ls.dirs, ls.f_count, ls.d_count,
    ls.file_skip_count, ls.parent_path)

/-- Aggregate returned by a first-level subtree task (canonical worker
state; by `gta_agg_indep` the returned aggregate is the same whatever
shared state the task starts from). -/
def subtree_agg (cfg : Config) (maxdepth : Nat) (sub : FSNode) : Agg :=
  (get_tree_attr cfg maxdepth false sub 1 scan_init_state).agg

/-- Sample record used by concrete witnesses. -/
def rec0 : Record :=
  { rtype := RecType.file, size := 10, size_du := 4096, owner := 0, group := 0,
    name := "a.txt", nlink := 1, ino := 11, parent_path := "/r", extension := ".txt",
    file_count := 0, dir_count := 0, mtime := 0, atime := 0, ctime := 0 }

def nmOk (t : String) : RawName := { strict := some t, lossy := t }

def stA : StatInfo := { uid := 1, gid := 2, nlink := 1, ino := 101, mtime := 0, atime := 0, ctime := 0 }

def cfgA : Config := { blocksize := 512, chunksize := 1000 }

def nmBad : RawName := { strict := none, lossy := "b?d.txt" }

def fA : FSNode := FSNode.file (nmOk "a") 10 1 stA false

def fB : FSNode := FSNode.file (nmOk "b") 20 1 stA false

def fC : FSNode := FSNode.file (nmOk "c") 30 1 stA false

def dA : FSNode := FSNode.dir (nmOk "da") (nmOk "/r") (nmOk "/r/da") stA false false [fB]

def dB : FSNode := FSNode.dir (nmOk "db") (nmOk "/r") (nmOk "/r/db") stA false false [fC]

def rootS : FSNode :=
  FSNode.dir (nmOk "r") (nmOk "/") (nmOk "/r") stA false false [dA, dB]

def r0S : Record :=
  { rtype := RecType.directory, size := 0, size_du := 0, owner := 1, group := 2,
    name := "r", nlink := 1, ino := 101, parent_path := "/", extension := "",
    file_count := 0, dir_count := 3, mtime := 0, atime := 0, ctime := 0 }

def sh0S : WState :=
  { documents := [], flushes := [], warnings := 0, dircount := 3, filecount := 0,
    inodecount := 2, skipdircount := 0, skipfilecount := 0, total_documents := 0 }

def zeroFileDir : FSNode :=
  FSNode.dir (nmOk "d") (nmOk "/r") (nmOk "/r/d") stA false false
    [FSNode.file (nmOk "z") 0 1 stA false]

def dirE : FSNode :=
  FSNode.dir (nmOk "e") (nmOk "/r/p") (nmOk "/r/p/e") stA false false []

def dirP : FSNode :=
  FSNode.dir (nmOk "p") (nmOk "/r") (nmOk "/r/p") stA false false [dirE]

def errDir : FSNode :=
  FSNode.dir (nmOk "d") (nmOk "/r") (nmOk "/r/d") stA false false
    [FSNode.file (nmOk "a") 10 1 stA false,
     FSNode.file (nmOk "b") 20 1 stA true,
     FSNode.file (nmOk "c") 30 1 stA false]

def dirF : FSNode :=
  FSNode.dir (nmOk "f") (nmOk "/r") (nmOk "/r/f") stA false false [fA]

theorem scan_children_nil (cfg : Config) (m : Nat) (q : Bool) (d : Nat)
    (s : RawName) (ls : LoopState) :
    scan_children cfg m q d s [] ls = { ls := ls, errored := false } := by
  rw [scan_children]

theorem scan_children_cons (cfg : Config) (m : Nat) (q : Bool) (d : Nat)
    (s : RawName) (c : FSNode) (rest : List FSNode) (ls : LoopState) :
    scan_children cfg m q d s (c :: rest) ls =
      (if (scan_step cfg m q d s c ls).errored then scan_step cfg m q d s c ls
       else scan_children cfg m q d s rest (scan_step cfg m q d s c ls).ls) := by
  cases c with
  | symlink => rw [scan_children]; simp [scan_step]
  | file fnameR fsize fblocks fst fstatFails =>
    rw [scan_children]; simp only [scan_step]
    by_cases h : fstatFails <;> simp [h]
  | dir dn dp dsp dst dsf dscf dch =>
    rw [scan_children]; simp only [scan_step]
    by_cases h : 0 < m ∧ d < m ∧ q = false <;> simp [h]

theorem get_tree_attr_dir (cfg : Config) (m : Nat) (q : Bool)
    (nR pR sR : RawName) (st : StatInfo) (sf scf : Bool) (ch : List FSNode)
    (depth : Nat) (ws : WState) :
    get_tree_attr cfg m q (FSNode.dir nR pR sR st sf scf ch) depth ws =
      (if sf then
        { agg := ⟨0, 0, 0, 0⟩, ws := { ws with warnings := ws.warnings + 1 },
          rollup := none }
      else if scf then
        { agg := ⟨0, 0, 0, 0⟩, ws := { ws with warnings := ws.warnings + 1 },
          rollup := none }
      else
        let r := scan_children cfg m q depth sR ch (init_loop ws)
        if r.errored then
          { agg := ⟨r.ls.size, r.ls.size_du, r.ls.files, r.ls.dirs⟩,
            ws := { r.ls.ws with warnings := r.ls.ws.warnings + 1 },
            rollup := none }
        else frame_finish cfg depth st nR pR r.ls) := by
  rw [get_tree_attr]

theorem emit_record_emitted (C : Nat) (r : Record) (docs : List Record)
    (fls : List (List Record)) :
    (emit_record C r docs fls).2.1.flatten ++ (emit_record C r docs fls).1 =
      fls.flatten ++ docs ++ [r] := by
  unfold emit_record
  by_cases h : C ≤ docs.length + 1 <;> simp [h]

theorem scan_append (cfg : Config) (m : Nat) (q : Bool) (d : Nat) (s : RawName)
    (a b : List FSNode) (ls : LoopState) :
    scan_children cfg m q d s (a ++ b) ls =
      (if (scan_children cfg m q d s a ls).errored then scan_children cfg m q d s a ls
       else scan_children cfg m q d s b (scan_children cfg m q d s a ls).ls) := by
  induction a generalizing ls with
  | nil => simp [scan_children_nil]
  | cons c rest ih =>
    rw [List.cons_append, scan_children_cons, scan_children_cons]
    by_cases he : (scan_step cfg m q d s c ls).errored <;> simp [he, ih]

/-- Arithmetic helper: the usual ceiling-division identity. -/
theorem ceil_aux (C n : Nat) (hC : 0 < C) :
    n / C + (if n % C = 0 then 0 else 1) = (n + C - 1) / C := by
  obtain ⟨q, r, hq, hr, hlt⟩ : ∃ q r, n / C = q ∧ n % C = r ∧ r < C :=
    ⟨n / C, n % C, rfl, rfl, Nat.mod_lt _ hC⟩
  have hn : n = C * q + r := by rw [← hq, ← hr]; exact (Nat.div_add_mod n C).symm
  subst hn
  rw [hq, hr]
  rcases Nat.eq_zero_or_pos r with h0 | h0
  · subst h0
    have h1 : C * q + 0 + C - 1 = C * q + (C - 1) := by omega
    rw [h1, Nat.mul_add_div hC, Nat.div_eq_of_lt (by omega)]
    simp
  · obtain ⟨r', rfl⟩ : ∃ r', r = r' + 1 := ⟨r - 1, by omega⟩
    have h1 : C * q + (r' + 1) + C - 1 = C * (q + 1) + r' := by
      rw [Nat.mul_add, Nat.mul_one]; omega
    rw [h1, Nat.mul_add_div hC, Nat.div_eq_of_lt (by omega)]
    simp

/-- Invariant of the batching fold: no record is lost or duplicated, the
pending batch holds the division remainder, every flush empties the batch,
and each triggered flush carries exactly `C` records. -/
theorem emit_fold_inv (C : Nat) (hC : 0 < C) (rs : List Record) :
    ∀ (docs : List Record) (fls : List (List Record)), docs.length < C →
      (emit_fold C rs docs fls).2.flatten ++ (emit_fold C rs docs fls).1 =
        fls.flatten ++ docs ++ rs ∧
      (emit_fold C rs docs fls).1.length = (docs.length + rs.length) % C ∧
      (emit_fold C rs docs fls).2.length = fls.length + (docs.length + rs.length) / C ∧
      (∀ b ∈ (emit_fold C rs docs fls).2, b ∈ fls ∨ b.length = C) := by
  induction rs with
  | nil =>
    intro docs fls h
    refine ⟨by simp [emit_fold], ?_, ?_, ?_⟩
    · simp [emit_fold, Nat.mod_eq_of_lt h]
    · simp [emit_fold, Nat.div_eq_of_lt h]
    · intro b hb; simp [emit_fold] at hb; exact Or.inl hb
  | cons r rs ih =>
    intro docs fls h
    have hstep : emit_fold C (r :: rs) docs fls =
        (emit_fold C rs (emit_record C r docs fls).1 (emit_record C r docs fls).2.1) := by
      simp [emit_fold, List.foldl_cons]
    by_cases hfull : C ≤ docs.length + 1
    · have hlen : docs.length + 1 = C := by omega
      have he : (emit_record C r docs fls).1 = [] ∧
          (emit_record C r docs fls).2.1 = fls ++ [docs ++ [r]] := by
        simp [emit_record, hfull]
      obtain ⟨ih1, ih2, ih3, ih4⟩ := ih [] (fls ++ [docs ++ [r]]) hC
      simp only [List.length_nil, List.length_cons, List.length_append,
        Nat.zero_add] at ih1 ih2 ih3 ⊢
      rw [hstep, he.1, he.2]
      refine ⟨?_, ?_, ?_, ?_⟩
      · rw [ih1]; simp
      · rw [ih2,
          show docs.length + (rs.length + 1) = rs.length + C from by omega,
          Nat.add_mod_right]
      · rw [ih3,
          show docs.length + (rs.length + 1) = rs.length + C from by omega,
          Nat.add_div_right _ hC]
        omega
      · intro b hb
        rcases ih4 b hb with hmem | hlenb
        · rcases List.mem_append.mp hmem with hmem' | hmem'
          · exact Or.inl hmem'
          · simp at hmem'
            right
            rw [hmem']
            simp
            omega
        · exact Or.inr hlenb
    · have he : (emit_record C r docs fls).1 = docs ++ [r] ∧
          (emit_record C r docs fls).2.1 = fls := by
        simp [emit_record, hfull]
      have hlt : (docs ++ [r]).length < C := by simp; omega
      obtain ⟨ih1, ih2, ih3, ih4⟩ := ih (docs ++ [r]) fls hlt
      simp only [List.length_cons, List.length_append, List.length_nil] at ih1 ih2 ih3 ⊢
      rw [hstep, he.1, he.2]
      refine ⟨?_, ?_, ?_, ?_⟩
      · rw [ih1]; simp
      · rw [ih2]; congr 1; omega
      · rw [ih3]; congr 2; omega
      · exact ih4

theorem file_step_fbump (cfg : Config) (s f : RawName) (fsz fb : Nat)
    (st : StatInfo) (ls : LoopState) :
    file_step cfg s f fsz fb st (fbump ls) = fbump (file_step cfg s f fsz fb st ls) := by
  unfold file_step fbump
  by_cases h : 0 < fsz <;> simp [h, handle_unicode]

theorem scan_step_fbump (cfg : Config) (m : Nat) (q : Bool) (d : Nat) (s : RawName)
    (c : FSNode) (ls : LoopState) :
    scan_step cfg m q d s c (fbump ls) =
      { ls := fbump (scan_step cfg m q d s c ls).ls,
        errored := (scan_step cfg m q d s c ls).errored } := by
  cases c with
  | symlink => rfl
  | file fnameR fsize fblocks fst fstatFails =>
    simp only [scan_step]
    by_cases hf : fstatFails
    · simp [hf, fbump]
    · simp only [hf, if_neg, Bool.false_eq_true, not_false_eq_true]
      have h1 : { fbump ls with f_count := (fbump ls).f_count + 1 } =
          fbump { ls with f_count := ls.f_count + 1 } := by
        simp [fbump]
      simp [h1, file_step_fbump]
  | dir dn dp dsp dst dsf dscf dch =>
    simp only [scan_step]
    by_cases hc : 0 < m ∧ d < m ∧ q = false
    · simp [hc, fbump]
    · simp [hc, fbump]

theorem scan_children_fbump (cfg : Config) (m : Nat) (q : Bool) (d : Nat)
    (s : RawName) (l : List FSNode) (ls : LoopState) :
    scan_children cfg m q d s l (fbump ls) =
      { ls := fbump (scan_children cfg m q d s l ls).ls,
        errored := (scan_children cfg m q d s l ls).errored } := by
  induction l generalizing ls with
  | nil => simp [scan_children_nil]
  | cons c rest ih =>
    rw [scan_children_cons, scan_children_cons, scan_step_fbump]
    by_cases he : (scan_step cfg m q d s c ls).errored <;> simp [he, ih]

theorem frame_finish_fbump (cfg : Config) (depth : Nat) (st : StatInfo)
    (nR pR : RawName) (ls : LoopState) :
    frame_finish cfg depth st nR pR (fbump ls) =
      (let t := frame_finish cfg depth st nR pR ls
       { t with ws := { t.ws with
          inodecount := t.ws.inodecount + 1,
          skipfilecount := t.ws.skipfilecount + 1 } }) := by
  unfold frame_finish fbump apply_counters
  by_cases hc : ls.files > 0 ∨ ls.dirs > 0 <;>
    by_cases hd : 0 < depth <;>
    simp [hc, hd, handle_unicode] <;>
    omega

theorem frame_finish_skip (cfg : Config) (depth : Nat) (st : StatInfo)
    (nR pR : RawName) (ls : LoopState) (h : ls.files = 0 ∧ ls.dirs = 0) :
    frame_finish cfg depth st nR pR ls =
      { agg := ⟨ls.size, ls.size_du, 0, 0⟩,
        ws := apply_counters ls.ws ls.total_docs 1 ls.d_count ls.f_count
          ls.file_skip_count,
        rollup := none } := by
  unfold frame_finish
  rw [if_neg (by omega)]
  simp [h.1, h.2]

theorem frame_finish_emit (cfg : Config) (depth : Nat) (st : StatInfo)
    (nR pR : RawName) (ls : LoopState) (h : ls.files > 0 ∨ ls.dirs > 0)
    (hd : 0 < depth) :
    ∃ d : Record,
      emitted (frame_finish cfg depth st nR pR ls).ws = emitted ls.ws ++ [d] ∧
      d.rtype = RecType.directory ∧ d.dir_count = ls.dirs + 1 ∧
      d.file_count = ls.files ∧ d.size = ls.size ∧ d.size_du = ls.size_du ∧
      (frame_finish cfg depth st nR pR ls).agg =
        ⟨ls.size, ls.size_du, ls.files, ls.dirs⟩ ∧
      (frame_finish cfg depth st nR pR ls).rollup = none := by
  unfold frame_finish
  rw [if_pos h, if_pos hd]
  cases hn : handle_unicode nR false with
  | none =>
    simp only [hn]
    refine ⟨{ rtype := RecType.directory, size := ls.size, size_du := ls.size_du,
              owner := st.uid, group := st.gid, name := nR.lossy, nlink := st.nlink,
              ino := st.ino, parent_path := pR.lossy, extension := "",
              file_count := ls.files, dir_count := ls.dirs + 1,
              mtime := st.mtime, atime := st.atime, ctime := st.ctime },
      ?_, by simp, by simp, by simp, by simp, by simp, by simp, by simp⟩
    simp [emitted, apply_counters, emit_record_emitted, handle_unicode]
  | some fn2 =>
    simp only [hn]
    cases hpp : handle_unicode pR false with
    | none =>
      simp only [hpp]
      refine ⟨{ rtype := RecType.directory, size := ls.size, size_du := ls.size_du,
                owner := st.uid, group := st.gid, name := nR.lossy, nlink := st.nlink,
                ino := st.ino, parent_path := pR.lossy, extension := "",
                file_count := ls.files, dir_count := ls.dirs + 1,
                mtime := st.mtime, atime := st.atime, ctime := st.ctime },
        ?_, by simp, by simp, by simp, by simp, by simp, by simp, by simp⟩
      simp [emitted, apply_counters, emit_record_emitted, handle_unicode]
    | some pp2 =>
      simp only [hpp]
      refine ⟨{ rtype := RecType.directory, size := ls.size, size_du := ls.size_du,
                owner := st.uid, group := st.gid, name := fn2, nlink := st.nlink,
                ino := st.ino, parent_path := pp2, extension := "",
                file_count := ls.files, dir_count := ls.dirs + 1,
                mtime := st.mtime, atime := st.atime, ctime := st.ctime },
        ?_, by simp, by simp, by simp, by simp, by simp, by simp, by simp⟩
      simp [emitted, apply_counters, emit_record_emitted, handle_unicode]

theorem frame_finish_root (cfg : Config) (st : StatInfo)
    (nR pR : RawName) (ls : LoopState) (h : ls.files > 0 ∨ ls.dirs > 0) :
    ∃ d : Record,
      (frame_finish cfg 0 st nR pR ls).rollup = some d ∧
      d.rtype = RecType.directory ∧ d.dir_count = ls.dirs + 1 ∧
      d.file_count = ls.files ∧ d.size = ls.size ∧ d.size_du = ls.size_du ∧
      emitted (frame_finish cfg 0 st nR pR ls).ws = emitted ls.ws ∧
      (frame_finish cfg 0 st nR pR ls).agg =
        ⟨ls.size, ls.size_du, ls.files, ls.dirs⟩ := by
  unfold frame_finish
  rw [if_pos h, if_neg (by omega)]
  cases hn : handle_unicode nR false with
  | none =>
    simp only [hn]
    refine ⟨{ rtype := RecType.directory, size := ls.size, size_du := ls.size_du,
              owner := st.uid, group := st.gid, name := nR.lossy, nlink := st.nlink,
              ino := st.ino, parent_path := pR.lossy, extension := "",
              file_count := ls.files, dir_count := ls.dirs + 1,
              mtime := st.mtime, atime := st.atime, ctime := st.ctime },
      by simp [handle_unicode], by simp, by simp, by simp, by simp, by simp,
      by simp [emitted, apply_counters], by simp⟩
  | some fn2 =>
    simp only [hn]
    cases hpp : handle_unicode pR false with
    | none =>
      simp only [hpp]
      refine ⟨{ rtype := RecType.directory, size := ls.size, size_du := ls.size_du,
                owner := st.uid, group := st.gid, name := nR.lossy, nlink := st.nlink,
                ino := st.ino, parent_path := pR.lossy, extension := "",
                file_count := ls.files, dir_count := ls.dirs + 1,
                mtime := st.mtime, atime := st.atime, ctime := st.ctime },
        by simp [handle_unicode], by simp, by simp, by simp, by simp, by simp,
        by simp [emitted, apply_counters], by simp⟩
    | some pp2 =>
      simp only [hpp]
      refine ⟨{ rtype := RecType.directory, size := ls.size, size_du := ls.size_du,
                owner := st.uid, group := st.gid, name := fn2, nlink := st.nlink,
                ino := st.ino, parent_path := pp2, extension := "",
                file_count := ls.files, dir_count := ls.dirs + 1,
                mtime := st.mtime, atime := st.atime, ctime := st.ctime },
        by simp, by simp, by simp, by simp, by simp, by simp,
        by simp [emitted, apply_counters], by simp⟩

theorem scan_symlinks (cfg : Config) (m : Nat) (q : Bool) (d : Nat) (s : RawName)
    (l : List FSNode) (ls : LoopState) (h : ∀ c ∈ l, c = FSNode.symlink) :
    scan_children cfg m q d s l ls = { ls := ls, errored := false } := by
  induction l with
  | nil => exact scan_children_nil cfg m q d s ls
  | cons c rest ih =>
    have hc : c = FSNode.symlink := h c (List.mem_cons_self c rest)
    subst hc
    rw [scan_children_cons]
    simp only [scan_step]
    exact ih (fun c hc => h c (List.mem_cons_of_mem _ hc))

theorem file_step_dirs (cfg : Config) (s f : RawName) (fsz fb : Nat)
    (st : StatInfo) (ls : LoopState) :
    (file_step cfg s f fsz fb st ls).dirs = ls.dirs ∧
    (file_step cfg s f fsz fb st ls).d_count = ls.d_count := by
  unfold file_step
  by_cases h : 0 < fsz <;> simp [h, handle_unicode]

theorem scan_dcount_le (cfg : Config) (m : Nat) (q : Bool) (d : Nat) (s : RawName)
    (l : List FSNode) (ls : LoopState) (h : ls.d_count ≤ ls.dirs) :
    (scan_children cfg m q d s l ls).ls.d_count ≤ (scan_children cfg m q d s l ls).ls.dirs := by
  induction l generalizing ls with
  | nil => simpa [scan_children_nil] using h
  | cons c rest ih =>
    rw [scan_children_cons]
    by_cases he : (scan_step cfg m q d s c ls).errored
    · rw [if_pos he]
      cases c with
      | symlink => simpa [scan_step] using h
      | file fnameR fsize fblocks fst fstatFails =>
        simp only [scan_step] at he ⊢
        by_cases hf : fstatFails
        · simpa [hf] using h
        · simp [hf] at he
      | dir dn dp dsp dst dsf dscf dch =>
        simp only [scan_step] at he
        by_cases hc : 0 < m ∧ d < m ∧ q = false <;> simp [hc] at he
    · rw [if_neg he]
      apply ih
      cases c with
      | symlink => simpa [scan_step] using h
      | file fnameR fsize fblocks fst fstatFails =>
        simp only [scan_step] at he ⊢
        by_cases hf : fstatFails
        · simp [hf] at he
        · simp only [hf, Bool.false_eq_true, if_false]
          have := file_step_dirs cfg s fnameR fsize fblocks fst
            { ls with f_count := ls.f_count + 1 }
          rw [this.1, this.2]
          simpa using h
      | dir dn dp dsp dst dsf dscf dch =>
        simp only [scan_step]
        by_cases hc : 0 < m ∧ d < m ∧ q = false <;> simp [hc] <;> omega

theorem file_step_core (cfg : Config) (s f : RawName) (fsz fb : Nat)
    (st : StatInfo) (ls ls' : LoopState) (h : ls.core = ls'.core) :
    (file_step cfg s f fsz fb st ls).core = (file_step cfg s f fsz fb st ls').core := by
  obtain ⟨h1, h2, h3, h4, h5, h6, h7, h8⟩ :
      ls.size = ls'.size ∧ ls.size_du = ls'.size_du ∧ ls.files = ls'.files ∧
      ls.dirs = ls'.dirs ∧ ls.f_count = ls'.f_count ∧ ls.d_count = ls'.d_count ∧
      ls.file_skip_count = ls'.file_skip_count ∧ ls.parent_path = ls'.parent_path := by
    simpa [LoopState.core, Prod.ext_iff] using h
  unfold file_step
  by_cases hz : 0 < fsz <;>
    simp [hz, LoopState.core, h1, h2, h3, h4, h5, h6, h7, h8, handle_unicode]

theorem frame_finish_agg (cfg : Config) (depth : Nat) (st : StatInfo)
    (nR pR : RawName) (ls : LoopState) :
    (frame_finish cfg depth st nR pR ls).agg =
      (if ls.files > 0 ∨ ls.dirs > 0 then ⟨ls.size, ls.size_du, ls.files, ls.dirs⟩
       else ⟨ls.size, ls.size_du, ls.files,
         if 0 < ls.dirs then ls.dirs - 1 else ls.dirs⟩ : Agg) := by
  unfold frame_finish
  by_cases h : ls.files > 0 ∨ ls.dirs > 0
  · rw [if_pos h, if_pos h]
    by_cases hd : 0 < depth <;> simp [hd, handle_unicode]
  · rw [if_neg h, if_neg h]

mutual

/-- Returned aggregate of `get_tree_attr` is independent of the incoming
worker state: the shared counters and upload history never feed back into
the sums. -/
theorem gta_agg_indep (cfg : Config) (m : Nat) (q : Bool) (node : FSNode)
    (depth : Nat) (ws ws' : WState) :
    (get_tree_attr cfg m q node depth ws).agg =
      (get_tree_attr cfg m q node depth ws').agg := by
  cases node with
  | symlink => rw [get_tree_attr, get_tree_attr]
  | file nm sz bl st sf => rw [get_tree_attr, get_tree_attr]
  | dir nR pR sR st sf scf ch =>
    rw [get_tree_attr_dir, get_tree_attr_dir]
    by_cases hsf : sf
    · simp [hsf]
    · by_cases hscf : scf
      · simp [hsf, hscf]
      · simp only [hsf, hscf, Bool.false_eq_true, if_false]
        have hcore := scan_core_indep cfg m q depth sR ch (init_loop ws) (init_loop ws')
          (by simp [init_loop, LoopState.core])
        obtain ⟨h1, h2, h3, h4, h5, h6, h7, h8⟩ :
            (scan_children cfg m q depth sR ch (init_loop ws)).ls.size =
              (scan_children cfg m q depth sR ch (init_loop ws')).ls.size ∧
            (scan_children cfg m q depth sR ch (init_loop ws)).ls.size_du =
              (scan_children cfg m q depth sR ch (init_loop ws')).ls.size_du ∧
            (scan_children cfg m q depth sR ch (init_loop ws)).ls.files =
              (scan_children cfg m q depth sR ch (init_loop ws')).ls.files ∧
            (scan_children cfg m q depth sR ch (init_loop ws)).ls.dirs =
              (scan_children cfg m q depth sR ch (init_loop ws')).ls.dirs ∧
            (scan_children cfg m q depth sR ch (init_loop ws)).ls.f_count =
              (scan_children cfg m q depth sR ch (init_loop ws')).ls.f_count ∧
            (scan_children cfg m q depth sR ch (init_loop ws)).ls.d_count =
              (scan_children cfg m q depth sR ch (init_loop ws')).ls.d_count ∧
            (scan_children cfg m q depth sR ch (init_loop ws)).ls.file_skip_count =
              (scan_children cfg m q depth sR ch (init_loop ws')).ls.file_skip_count ∧
            (scan_children cfg m q depth sR ch (init_loop ws)).ls.parent_path =
              (scan_children cfg m q depth sR ch (init_loop ws')).ls.parent_path := by
          simpa [LoopState.core, Prod.ext_iff] using hcore.1
        rw [hcore.2]
        by_cases herr : (scan_children cfg m q depth sR ch (init_loop ws')).errored
        · simp [herr, h1, h2, h3, h4]
        · simp only [herr, Bool.false_eq_true, if_false]
          rw [frame_finish_agg, frame_finish_agg, h1, h2, h3, h4]
  termination_by sizeOf node

/-- Loop locals of `scan_children` other than the worker state evolve
independently of the worker state. -/
theorem scan_core_indep (cfg : Config) (m : Nat) (q : Bool) (d : Nat) (s : RawName)
    (l : List FSNode) (ls ls' : LoopState) (h : ls.core = ls'.core) :
    ((scan_children cfg m q d s l ls).ls.core =
       (scan_children cfg m q d s l ls').ls.core) ∧
    (scan_children cfg m q d s l ls).errored =
      (scan_children cfg m q d s l ls').errored := by
  cases l with
  | nil =>
    rw [scan_children_nil, scan_children_nil]
    exact ⟨h, rfl⟩
  | cons c rest =>
    rw [scan_children_cons, scan_children_cons]
    obtain ⟨h1, h2, h3, h4, h5, h6, h7, h8⟩ :
        ls.size = ls'.size ∧ ls.size_du = ls'.size_du ∧ ls.files = ls'.files ∧
        ls.dirs = ls'.dirs ∧ ls.f_count = ls'.f_count ∧ ls.d_count = ls'.d_count ∧
        ls.file_skip_count = ls'.file_skip_count ∧ ls.parent_path = ls'.parent_path := by
      simpa [LoopState.core, Prod.ext_iff] using h
    have hstep : (scan_step cfg m q d s c ls).ls.core =
        (scan_step cfg m q d s c ls').ls.core ∧
        (scan_step cfg m q d s c ls).errored = (scan_step cfg m q d s c ls').errored := by
      cases c with
      | symlink => exact ⟨h, rfl⟩
      | file nm sz bl st sf =>
        simp only [scan_step]
        by_cases hsf : sf
        · simp [hsf, LoopState.core, h1, h2, h3, h4, h5, h6, h7, h8]
        · simp only [hsf, Bool.false_eq_true, if_false]
          refine ⟨?_, by simp⟩
          apply file_step_core
          simp [LoopState.core, h1, h2, h3, h4, h5, h6, h7, h8]
      | dir dn dp dsp dst dsf dscf dch =>
        simp only [scan_step, Bool.not_eq_true]
        by_cases hc : 0 < m ∧ d < m ∧ q = false
        · rw [if_pos hc, if_pos hc]
          have hagg := gta_agg_indep cfg m q (FSNode.dir dn dp dsp dst dsf dscf dch)
            (d + 1) ls.ws ls'.ws
          refine ⟨?_, by simp⟩
          simp only [LoopState.core, hagg, h1, h2, h3, h4, h5, h6, h7, h8]
        · rw [if_neg hc, if_neg hc]
          exact ⟨by simp [LoopState.core, h1, h2, h3, h4, h5, h6, h7, h8], by simp⟩
    by_cases he : (scan_step cfg m q d s c ls).errored
    · rw [if_pos he, if_pos (by rw [← hstep.2]; exact he)]
      exact ⟨hstep.1, by rw [he, ← hstep.2, he]⟩
    · rw [if_neg he, if_neg (by rw [← hstep.2]; exact he)]
      exact scan_core_indep cfg m q d s rest _ _ hstep.1
  termination_by sizeOf l

end

theorem file_step_size (cfg : Config) (s f : RawName) (fsz fb : Nat)
    (st : StatInfo) (ls : LoopState) :
    (file_step cfg s f fsz fb st ls).size = ls.size + (if 0 < fsz then fsz else 0) ∧
    (file_step cfg s f fsz fb st ls).size_du =
      ls.size_du + (if 0 < fsz then fb * cfg.blocksize else 0) ∧
    (file_step cfg s f fsz fb st ls).files = ls.files + (if 0 < fsz then 1 else 0) := by
  unfold file_step
  by_cases h : 0 < fsz <;> simp [h, handle_unicode]

mutual

/-- Zero logical size forces zero on-disk size and zero counted files in a
returned aggregate: only files of positive size contribute to any of the
three. -/
theorem gta_size_zero (cfg : Config) (m : Nat) (q : Bool) (node : FSNode)
    (depth : Nat) (ws : WState) :
    (get_tree_attr cfg m q node depth ws).agg.size = 0 →
    (get_tree_attr cfg m q node depth ws).agg.size_du = 0 ∧
      (get_tree_attr cfg m q node depth ws).agg.files = 0 := by
  cases node with
  | symlink => intro _; rw [get_tree_attr]; exact ⟨rfl, rfl⟩
  | file nm sz bl st sf => intro _; rw [get_tree_attr]; exact ⟨rfl, rfl⟩
  | dir nR pR sR st sf scf ch =>
    rw [get_tree_attr_dir]
    by_cases hsf : sf
    · simp [hsf]
    · by_cases hscf : scf
      · simp [hsf, hscf]
      · simp only [hsf, hscf, Bool.false_eq_true, if_false]
        have hmono := scan_size_mono cfg m q depth sR ch (init_loop ws)
        by_cases herr : (scan_children cfg m q depth sR ch (init_loop ws)).errored
        · simp only [herr, if_pos]
          intro hz
          have hthis := hmono.2 (hz.trans rfl)
          exact ⟨hthis.1, hthis.2⟩
        · simp only [herr, Bool.false_eq_true, if_false]
          rw [frame_finish_agg]
          by_cases hne : (scan_children cfg m q depth sR ch (init_loop ws)).ls.files > 0 ∨
              (scan_children cfg m q depth sR ch (init_loop ws)).ls.dirs > 0
          · rw [if_pos hne]
            dsimp only
            intro hz
            have hthis := hmono.2 (hz.trans rfl)
            exact ⟨hthis.1, hthis.2⟩
          · rw [if_neg hne]
            dsimp only
            intro hz
            have hthis := hmono.2 (hz.trans rfl)
            exact ⟨hthis.1, hthis.2⟩
  termination_by sizeOf node

/-- The running logical size never decreases along the scandir loop, and if
it does not grow then neither the on-disk size nor the file count grew. -/
theorem scan_size_mono (cfg : Config) (m : Nat) (q : Bool) (d : Nat) (s : RawName)
    (l : List FSNode) (ls : LoopState) :
    ls.size ≤ (scan_children cfg m q d s l ls).ls.size ∧
    ((scan_children cfg m q d s l ls).ls.size = ls.size →
      (scan_children cfg m q d s l ls).ls.size_du = ls.size_du ∧
      (scan_children cfg m q d s l ls).ls.files = ls.files) := by
  cases l with
  | nil =>
    rw [scan_children_nil]
    exact ⟨Nat.le_refl _, fun _ => ⟨rfl, rfl⟩⟩
  | cons c rest =>
    rw [scan_children_cons]
    have hstep : ls.size ≤ (scan_step cfg m q d s c ls).ls.size ∧
        ((scan_step cfg m q d s c ls).ls.size = ls.size →
          (scan_step cfg m q d s c ls).ls.size_du = ls.size_du ∧
          (scan_step cfg m q d s c ls).ls.files = ls.files) := by
      cases c with
      | symlink => exact ⟨Nat.le_refl _, fun _ => ⟨rfl, rfl⟩⟩
      | file nm sz bl st sf =>
        simp only [scan_step]
        by_cases hsf : sf
        · simp [hsf]
        · simp only [hsf, Bool.false_eq_true, if_false]
          have hf := file_step_size cfg s nm sz bl st { ls with f_count := ls.f_count + 1 }
          by_cases hsz : 0 < sz
          · refine ⟨?_, ?_⟩
            · rw [hf.1]; simp
            · intro hz
              rw [hf.1] at hz
              simp only [if_pos hsz] at hz
              omega
          · refine ⟨by rw [hf.1]; simp, ?_⟩
            intro hz
            rw [hf.2.1, hf.2.2]
            simp [hsz]
      | dir dn dp dsp dst dsf dscf dch =>
        simp only [scan_step, Bool.not_eq_true]
        by_cases hc : 0 < m ∧ d < m ∧ q = false
        · rw [if_pos hc]
          dsimp only
          have hsub := gta_size_zero cfg m q (FSNode.dir dn dp dsp dst dsf dscf dch)
            (d + 1) ls.ws
          refine ⟨by simp, ?_⟩
          intro hz
          have hz0 : (get_tree_attr cfg m q (FSNode.dir dn dp dsp dst dsf dscf dch)
              (d + 1) ls.ws).agg.size = 0 := by omega
          have hd2 := hsub hz0
          rw [hd2.1, hd2.2]
          simp
        · rw [if_neg hc]
          exact ⟨Nat.le_refl _, fun _ => ⟨rfl, rfl⟩⟩
    by_cases he : (scan_step cfg m q d s c ls).errored
    · rw [if_pos he]
      exact hstep
    · rw [if_neg he]
      have hrest := scan_size_mono cfg m q d s rest (scan_step cfg m q d s c ls).ls
      refine ⟨Nat.le_trans hstep.1 hrest.1, ?_⟩
      intro hz
      have hstepz : (scan_step cfg m q d s c ls).ls.size = ls.size := by
        have := hrest.1
        omega
      have h1 := hrest.2 (by omega)
      have h2 := hstep.2 hstepz
      rw [h1.1, h1.2, h2.1, h2.2]
      exact ⟨rfl, rfl⟩
  termination_by sizeOf l

end

theorem crawl_thread_depth1 (cfg : Config) (m : Nat) (sub : FSNode) (r : Record)
    (sh : WState) :
    ∃ sh' : WState, crawl_thread cfg m sub 1 (some r) sh =
      some (some (if 0 < (subtree_agg cfg m sub).size
        then merge_rollup r (subtree_agg cfg m sub) else r), sh') := by
  have hagg : (get_tree_attr cfg m false sub 1 { sh with documents := [] }).agg =
      subtree_agg cfg m sub :=
    gta_agg_indep cfg m false sub 1 _ scan_init_state
  simp only [crawl_thread]
  rw [hagg]
  by_cases hpos : 0 < (subtree_agg cfg m sub).size
  · exact ⟨flush_remainder (get_tree_attr cfg m false sub 1
      { sh with documents := [] }).ws, by simp [hpos]⟩
  · exact ⟨flush_remainder (get_tree_attr cfg m false sub 1
      { sh with documents := [] }).ws, by simp [hpos]⟩

theorem merge_step_fields (cfg : Config) (m : Nat) (sub : FSNode) (r : Record) :
    (if 0 < (subtree_agg cfg m sub).size
      then merge_rollup r (subtree_agg cfg m sub) else r).size =
        r.size + (subtree_agg cfg m sub).size ∧
    (if 0 < (subtree_agg cfg m sub).size
      then merge_rollup r (subtree_agg cfg m sub) else r).size_du =
        r.size_du + (subtree_agg cfg m sub).size_du ∧
    (if 0 < (subtree_agg cfg m sub).size
      then merge_rollup r (subtree_agg cfg m sub) else r).file_count =
        r.file_count + (subtree_agg cfg m sub).files := by
  by_cases hpos : 0 < (subtree_agg cfg m sub).size
  · simp [hpos, merge_rollup]
  · have hz : (subtree_agg cfg m sub).size = 0 := by omega
    have h2 := gta_size_zero cfg m false sub 1 scan_init_state hz
    rw [if_neg hpos]
    exact ⟨by simp [hz], by simp [show (subtree_agg cfg m sub).size_du = 0 from h2.1],
      by simp [show (subtree_agg cfg m sub).files = 0 from h2.2]⟩

theorem crawl_merge_spec (cfg : Config) (m : Nat) (L : List FSNode) :
    ∀ (r : Record) (sh : WState),
    ∃ (r2 : Record) (sh2 : WState),
      crawl_merge cfg m L (some (some r, sh)) = some (some r2, sh2) ∧
      r2.size = r.size + (L.map fun s => (subtree_agg cfg m s).size).sum ∧
      r2.size_du = r.size_du + (L.map fun s => (subtree_agg cfg m s).size_du).sum ∧
      r2.file_count = r.file_count + (L.map fun s => (subtree_agg cfg m s).files).sum := by
  induction L with
  | nil =>
    intro r sh
    exact ⟨r, sh, rfl, by simp, by simp, by simp⟩
  | cons sub L ih =>
    intro r sh
    obtain ⟨sh1, hthread⟩ := crawl_thread_depth1 cfg m sub r sh
    have hstep : crawl_merge cfg m (sub :: L) (some (some r, sh)) =
        crawl_merge cfg m L (crawl_thread cfg m sub 1 (some r) sh) := by
      simp [crawl_merge, List.foldl_cons]
    obtain ⟨hm1, hm2, hm3⟩ := merge_step_fields cfg m sub r
    obtain ⟨r2, sh2, hcm, hs, hdu, hfc⟩ := ih
      (if 0 < (subtree_agg cfg m sub).size
        then merge_rollup r (subtree_agg cfg m sub) else r) sh1
    refine ⟨r2, sh2, ?_, ?_, ?_, ?_⟩
    · rw [hstep, hthread, hcm]
    · rw [hs, hm1]; simp; ring
    · rw [hdu, hm2]; simp; ring
    · rw [hfc, hm3]; simp; ring

/-- C1: after the depth-0 baseline pass has stored the root's own
direct-children record `r0` into `sizes[root]`, running the first-level
subtree tasks in any completion order produces a final RootRollup whose
`size`, `size_du` and `file_count` equal the baseline plus the sum of every
first-level subtree's returned aggregate. -/
theorem root_rollup_sum (cfg : Config) (m : Nat) (root : FSNode)
    (completed : List FSNode) (r0 : Record) (sh0 : WState)
    (hperm : completed.Perm (subdir_list root))
    (hbase : crawl_thread cfg 0 root 0 none scan_init_state = some (some r0, sh0)) :
    ∃ (rfin : Record) (shfin : WState),
      crawl cfg m root completed = some (some rfin, shfin) ∧
      rfin.size = r0.size +
        ((subdir_list root).map fun s => (subtree_agg cfg m s).size).sum ∧
      rfin.size_du = r0.size_du +
        ((subdir_list root).map fun s => (subtree_agg cfg m s).size_du).sum ∧
      rfin.file_count = r0.file_count +
        ((subdir_list root).map fun s => (subtree_agg cfg m s).files).sum := by
  unfold crawl
  rw [hbase]
  obtain ⟨r2, sh2, hcm, hs, hdu, hfc⟩ := crawl_merge_spec cfg m completed r0 sh0
  refine ⟨r2, sh2, hcm, ?_, ?_, ?_⟩
  · rw [hs]
    congr 1
    exact (hperm.map _).sum_eq
  · rw [hdu]
    congr 1
    exact (hperm.map _).sum_eq
  · rw [hfc]
    congr 1
    exact (hperm.map _).sum_eq

theorem root_rollup_sum_witness :
    ([dB, dA].Perm (subdir_list rootS) ∧
      crawl_thread cfgA 0 rootS 0 none scan_init_state = some (some r0S, sh0S)) ∧
    (∃ (rfin : Record) (shfin : WState),
      crawl cfgA 999 rootS [dB, dA] = some (some rfin, shfin) ∧
      rfin.size = r0S.size +
        ((subdir_list rootS).map fun s => (subtree_agg cfgA 999 s).size).sum ∧
      rfin.size_du = r0S.size_du +
        ((subdir_list rootS).map fun s => (subtree_agg cfgA 999 s).size_du).sum ∧
      rfin.file_count = r0S.file_count +
        ((subdir_list rootS).map fun s => (subtree_agg cfgA 999 s).files).sum) := by
  have hperm : [dB, dA].Perm (subdir_list rootS) := by
    show [dB, dA].Perm [dA, dB]
    exact List.Perm.swap dA dB []
  have hbase : crawl_thread cfgA 0 rootS 0 none scan_init_state =
      some (some r0S, sh0S) := by
    have hscan : scan_children cfgA 0 false 0 (nmOk "/r") [dA, dB]
        (init_loop { scan_init_state with documents := [] }) =
        { ls := { size := 0, size_du := 0, files := 0, dirs := 2, f_count := 0,
                  d_count := 2, file_skip_count := 0, total_docs := 0,
                  parent_path := none,
                  ws := { documents := [], flushes := [], warnings := 0, dircount := 1,
                          filecount := 0, inodecount := 0, skipdircount := 0,
                          skipfilecount := 0, total_documents := 0 } },
          errored := false } := by
      simp [dA, dB, scan_children_cons, scan_children_nil, scan_step,
        init_loop, scan_init_state, nmOk]
    simp only [crawl_thread, rootS]
    rw [get_tree_attr_dir]
    simp only [Bool.false_eq_true, if_false]
    rw [hscan]
    simp only [Bool.false_eq_true, if_false]
    rfl
  exact ⟨⟨hperm, hbase⟩, root_rollup_sum cfgA 999 rootS [dB, dA] r0S sh0S hperm hbase⟩

theorem zero_size_counted_counterexample :
    (get_tree_attr cfgA 999 false zeroFileDir 1 scan_init_state).ws.inodecount = 1 ∧
    (get_tree_attr cfgA 999 false zeroFileDir 1 scan_init_state).ws.skipfilecount = 1 ∧
    (get_tree_attr cfgA 999 false zeroFileDir 1 scan_init_state).ws.documents = [] ∧
    (get_tree_attr cfgA 999 false zeroFileDir 1 scan_init_state).agg = ⟨0, 0, 0, 0⟩ ∧
    scan_init_state.inodecount = 0 ∧ scan_init_state.skipfilecount = 0 := by
  simp [zeroFileDir, get_tree_attr_dir, scan_children_cons, scan_children_nil,
    scan_step, file_step, frame_finish, apply_counters, init_loop, handle_unicode,
    scan_init_state, emit_record, cfgA, stA, nmOk]

/-- C2 (amended): a regular non-symlink zero-size file is excluded from the
records and the subtree aggregate and from the shared `filecount` total,
but it is counted once in the shared `inodecount` and `skipfilecount`
totals: inserting such a file into a directory listing leaves the entire
result of `get_tree_attr` unchanged except for those two counters. -/
theorem zero_size_file_excluded (cfg : Config) (m : Nat) (q : Bool) (depth : Nat)
    (nR pR sR fn : RawName) (st fst : StatInfo) (fb : Nat) (l1 l2 : List FSNode)
    (ws : WState)
    (herr : (scan_children cfg m q depth sR (l1 ++ l2) (init_loop ws)).errored = false) :
    get_tree_attr cfg m q
        (FSNode.dir nR pR sR st false false
          (l1 ++ FSNode.file fn 0 fb fst false :: l2)) depth ws =
      (let t := get_tree_attr cfg m q (FSNode.dir nR pR sR st false false (l1 ++ l2)) depth ws
       { t with ws := { t.ws with
          inodecount := t.ws.inodecount + 1,
          skipfilecount := t.ws.skipfilecount + 1 } }) := by
  have herr0 := herr
  rw [scan_append] at herr
  by_cases h1 : (scan_children cfg m q depth sR l1 (init_loop ws)).errored
  · rw [if_pos h1] at herr
    rw [h1] at herr
    exact absurd herr (by simp)
  · have h1f : (scan_children cfg m q depth sR l1 (init_loop ws)).errored = false := by
      simpa using h1
    rw [if_neg h1] at herr
    have hstep : scan_children cfg m q depth sR
        (l1 ++ FSNode.file fn 0 fb fst false :: l2) (init_loop ws) =
        { ls := fbump (scan_children cfg m q depth sR (l1 ++ l2) (init_loop ws)).ls,
          errored := (scan_children cfg m q depth sR (l1 ++ l2) (init_loop ws)).errored } := by
      rw [scan_append, scan_append, h1f]
      simp only [Bool.false_eq_true, if_false]
      rw [scan_children_cons]
      have hz : scan_step cfg m q depth sR (FSNode.file fn 0 fb fst false)
          (scan_children cfg m q depth sR l1 (init_loop ws)).ls =
          { ls := fbump (scan_children cfg m q depth sR l1 (init_loop ws)).ls,
            errored := false } := by
        simp [scan_step, file_step, fbump]
      rw [hz]
      simp only [Bool.false_eq_true, if_false]
      rw [scan_children_fbump]
    rw [get_tree_attr_dir, get_tree_attr_dir, hstep]
    simp only [Bool.false_eq_true, if_false, herr0]
    rw [frame_finish_fbump]

theorem zero_size_file_excluded_witness :
    ((scan_children cfgA 999 false 1 (nmOk "/r/d") ([] ++ [])
        (init_loop scan_init_state)).errored = false) ∧
    (get_tree_attr cfgA 999 false
        (FSNode.dir (nmOk "d") (nmOk "/r") (nmOk "/r/d") stA false false
          ([] ++ FSNode.file (nmOk "z") 0 1 stA false :: [])) 1 scan_init_state =
      (let t := get_tree_attr cfgA 999 false
          (FSNode.dir (nmOk "d") (nmOk "/r") (nmOk "/r/d") stA false false ([] ++ []))
          1 scan_init_state
       { t with ws := { t.ws with
          inodecount := t.ws.inodecount + 1,
          skipfilecount := t.ws.skipfilecount + 1 } })) :=
  ⟨by simp [scan_children_nil],
    zero_size_file_excluded cfgA 999 false 1 (nmOk "d") (nmOk "/r") (nmOk "/r/d")
      (nmOk "z") stA stA 1 [] [] scan_init_state (by simp [scan_children_nil])⟩

theorem empty_dir_not_skipped_counterexample :
    (get_tree_attr cfgA 999 false dirP 1 scan_init_state).ws.skipdircount = 1 ∧
    (get_tree_attr cfgA 999 false dirP 1 scan_init_state).agg.files = 0 ∧
    (get_tree_attr cfgA 999 false dirP 1 scan_init_state).ws.documents =
      [{ rtype := RecType.directory, size := 0, size_du := 0, owner := 1, group := 2,
         name := "p", nlink := 1, ino := 101, parent_path := "/r", extension := "",
         file_count := 0, dir_count := 2, mtime := 0, atime := 0, ctime := 0 }] := by
  simp [dirP, dirE, get_tree_attr_dir, scan_children_cons, scan_children_nil,
    scan_step, file_step, frame_finish, apply_counters, init_loop, handle_unicode,
    scan_init_state, emit_record, cfgA, stA, nmOk]

/-- C3 (amended): the skip test of `get_tree_attr` is `files == 0 and
dirs == 0`, where `dirs` counts every subdirectory entry encountered in the
subtree — including subdirectories that were themselves skipped as empty.
(1) A directory whose children are all symlinks is skipped: it emits
nothing, returns the zero aggregate, bumps the skipped-directory counter
and contributes `-1` to the shared directory total (cancelling the `+1`
its parent recorded for it).  (2) In general a directory whose loop ends
without error with `files = 0` and `dirs = 0` is skipped in exactly that
way.  (3) Conversely, at depth > 0, whenever `files > 0` or `dirs > 0` —
even if every counted subdirectory was itself skipped — a DirectoryRecord
is emitted for the directory. -/
theorem empty_dir_skip_rule :
    (∀ (cfg : Config) (m : Nat) (q : Bool) (nR pR sR : RawName) (st : StatInfo)
        (ch : List FSNode) (depth : Nat) (ws : WState),
      (∀ c ∈ ch, c = FSNode.symlink) →
      get_tree_attr cfg m q (FSNode.dir nR pR sR st false false ch) depth ws =
        { agg := ⟨0, 0, 0, 0⟩,
          ws := { ws with
            skipdircount := ws.skipdircount + 1,
            dircount := ws.dircount - 1 },
          rollup := none }) ∧
    (∀ (cfg : Config) (m : Nat) (q : Bool) (nR pR sR : RawName) (st : StatInfo)
        (ch : List FSNode) (depth : Nat) (ws : WState),
      (scan_children cfg m q depth sR ch (init_loop ws)).errored = false →
      (scan_children cfg m q depth sR ch (init_loop ws)).ls.files = 0 →
      (scan_children cfg m q depth sR ch (init_loop ws)).ls.dirs = 0 →
      get_tree_attr cfg m q (FSNode.dir nR pR sR st false false ch) depth ws =
        { agg := ⟨(scan_children cfg m q depth sR ch (init_loop ws)).ls.size,
                  (scan_children cfg m q depth sR ch (init_loop ws)).ls.size_du, 0, 0⟩,
          ws := apply_counters (scan_children cfg m q depth sR ch (init_loop ws)).ls.ws
            (scan_children cfg m q depth sR ch (init_loop ws)).ls.total_docs 1 0
            (scan_children cfg m q depth sR ch (init_loop ws)).ls.f_count
            (scan_children cfg m q depth sR ch (init_loop ws)).ls.file_skip_count,
          rollup := none }) ∧
    (∀ (cfg : Config) (m : Nat) (q : Bool) (nR pR sR : RawName) (st : StatInfo)
        (ch : List FSNode) (depth : Nat) (ws : WState),
      0 < depth →
      (scan_children cfg m q depth sR ch (init_loop ws)).errored = false →
      ((scan_children cfg m q depth sR ch (init_loop ws)).ls.files > 0 ∨
        (scan_children cfg m q depth sR ch (init_loop ws)).ls.dirs > 0) →
      ∃ d : Record,
        emitted (get_tree_attr cfg m q (FSNode.dir nR pR sR st false false ch) depth ws).ws =
          emitted (scan_children cfg m q depth sR ch (init_loop ws)).ls.ws ++ [d] ∧
        d.rtype = RecType.directory) := by
  refine ⟨?_, ?_, ?_⟩
  · intro cfg m q nR pR sR st ch depth ws hsym
    rw [get_tree_attr_dir]
    simp only [Bool.false_eq_true, if_false]
    rw [scan_symlinks cfg m q depth sR ch (init_loop ws) hsym]
    simp only [Bool.false_eq_true, if_false]
    rw [frame_finish_skip cfg depth st nR pR (init_loop ws) (by simp [init_loop])]
    simp [init_loop, apply_counters]
  · intro cfg m q nR pR sR st ch depth ws herr hf hd
    have hdc : (scan_children cfg m q depth sR ch (init_loop ws)).ls.d_count = 0 := by
      have := scan_dcount_le cfg m q depth sR ch (init_loop ws) (by simp [init_loop])
      omega
    rw [get_tree_attr_dir]
    simp only [Bool.false_eq_true, if_false, herr]
    rw [frame_finish_skip cfg depth st nR pR _ ⟨hf, hd⟩, hdc]
  · intro cfg m q nR pR sR st ch depth ws hdep herr hne
    rw [get_tree_attr_dir]
    simp only [Bool.false_eq_true, if_false, herr]
    obtain ⟨d, hd1, hd2, -⟩ := frame_finish_emit cfg depth st nR pR
      (scan_children cfg m q depth sR ch (init_loop ws)).ls hne hdep
    exact ⟨d, hd1, hd2⟩

theorem empty_dir_skip_rule_witness :
    (∀ c ∈ [FSNode.symlink], c = FSNode.symlink) ∧
    get_tree_attr cfgA 999 false
        (FSNode.dir (nmOk "s") (nmOk "/r") (nmOk "/r/s") stA false false
          [FSNode.symlink]) 1 scan_init_state =
      { agg := ⟨0, 0, 0, 0⟩,
        ws := { scan_init_state with
          skipdircount := scan_init_state.skipdircount + 1,
          dircount := scan_init_state.dircount - 1 },
        rollup := none } :=
  ⟨by simp,
    empty_dir_skip_rule.1 cfgA 999 false (nmOk "s") (nmOk "/r") (nmOk "/r/s") stA
      [FSNode.symlink] 1 scan_init_state (by simp)⟩

/-- C4: a worker that emits `N` records with configured chunk size `C`
performs exactly `ceil(N / C)` flush operations (threshold flushes of
`emit_record` plus the final remainder flush of `crawl_thread`); each
emitted record appears in exactly one flushed batch (the concatenation of
the flushed batches is exactly the emission sequence), and every
threshold-triggered flush carries exactly `C` records (the batch is cleared
on each flush). -/
theorem batch_flush_schedule (C : Nat) (rs : List Record) (hC : 0 < C) :
    (worker_flush_all C rs).length = (rs.length + C - 1) / C ∧
    (worker_flush_all C rs).flatten = rs ∧
    (∀ b ∈ (emit_fold C rs [] []).2, b.length = C) := by
  obtain ⟨h1, h2, h3, h4⟩ := emit_fold_inv C hC rs [] [] hC
  simp only [List.length_nil, List.flatten_nil, List.nil_append, List.length_cons,
    Nat.zero_add] at h1 h2 h3
  have hfull : ∀ b ∈ (emit_fold C rs [] []).2, b.length = C := by
    intro b hb
    rcases h4 b hb with hmem | hlenb
    · exact absurd hmem (List.not_mem_nil b)
    · exact hlenb
  refine ⟨?_, ?_, hfull⟩
  · unfold worker_flush_all
    by_cases hrem : 0 < (emit_fold C rs [] []).1.length
    · rw [if_pos hrem]
      simp only [List.length_append, List.length_cons, List.length_nil]
      rw [h3]
      have hmod : rs.length % C ≠ 0 := by omega
      rw [← ceil_aux C rs.length hC]
      simp [hmod]
    · rw [if_neg hrem]
      rw [h3]
      have hmod : rs.length % C = 0 := by omega
      rw [← ceil_aux C rs.length hC]
      simp [hmod]
  · unfold worker_flush_all
    by_cases hrem : 0 < (emit_fold C rs [] []).1.length
    · rw [if_pos hrem]
      rw [List.flatten_append]
      simp only [List.flatten_cons, List.flatten_nil, List.append_nil]
      exact h1
    · rw [if_neg hrem]
      have hnil : (emit_fold C rs [] []).1 = [] := by
        cases hx : (emit_fold C rs [] []).1 <;> simp [hx] at hrem ⊢
      rw [hnil] at h1
      simpa using h1

theorem batch_flush_schedule_witness :
    0 < 2 ∧
    ((worker_flush_all 2 (List.replicate 5 rec0)).length =
        ((List.replicate 5 rec0).length + 2 - 1) / 2 ∧
      (worker_flush_all 2 (List.replicate 5 rec0)).flatten = List.replicate 5 rec0 ∧
      (∀ b ∈ (emit_fold 2 (List.replicate 5 rec0) [] []).2, b.length = 2)) :=
  ⟨by decide, batch_flush_schedule 2 (List.replicate 5 rec0) (by decide)⟩

theorem os_error_partial_counterexample :
    (get_tree_attr cfgA 999 false errDir 1 scan_init_state).agg = ⟨10, 512, 1, 0⟩ ∧
    (get_tree_attr cfgA 999 false errDir 1 scan_init_state).ws.warnings = 1 ∧
    (get_tree_attr cfgA 999 false errDir 1 scan_init_state).ws.documents.length = 1 ∧
    (get_tree_attr cfgA 999 false errDir 1 scan_init_state).ws.flushes = [] ∧
    (get_tree_attr cfgA 999 false errDir 1 scan_init_state).ws.inodecount = 0 := by
  simp [errDir, get_tree_attr_dir, scan_children_cons, scan_children_nil,
    scan_step, file_step, frame_finish, apply_counters, init_loop, handle_unicode,
    scan_init_state, emit_record, cfgA, stA, nmOk]

/-- C5 (amended): OS errors are path-scoped but their effect depends on
where they strike.  (1) An error stat-ing the directory itself, and (2) an
error opening its listing, each log one warning, increment the shared
warning counter by one and make the directory contribute the zero aggregate
`(0,0,0,0)`.  (3) An error stat-ing one of its children increments the
counter by one and aborts that directory's enumeration: the remaining
entries are not processed, no record is emitted for the directory itself,
its per-frame statistics are not merged, and the directory contributes the
partial aggregate accumulated before the error. -/
theorem os_error_handling :
    (∀ (cfg : Config) (m : Nat) (q : Bool) (nR pR sR : RawName) (st : StatInfo)
        (scf : Bool) (ch : List FSNode) (depth : Nat) (ws : WState),
      get_tree_attr cfg m q (FSNode.dir nR pR sR st true scf ch) depth ws =
        { agg := ⟨0, 0, 0, 0⟩, ws := { ws with warnings := ws.warnings + 1 },
          rollup := none }) ∧
    (∀ (cfg : Config) (m : Nat) (q : Bool) (nR pR sR : RawName) (st : StatInfo)
        (ch : List FSNode) (depth : Nat) (ws : WState),
      get_tree_attr cfg m q (FSNode.dir nR pR sR st false true ch) depth ws =
        { agg := ⟨0, 0, 0, 0⟩, ws := { ws with warnings := ws.warnings + 1 },
          rollup := none }) ∧
    (∀ (cfg : Config) (m : Nat) (q : Bool) (nR pR sR fn : RawName) (st fst : StatInfo)
        (fsz fb : Nat) (l1 l2 : List FSNode) (depth : Nat) (ws : WState),
      (scan_children cfg m q depth sR l1 (init_loop ws)).errored = false →
      get_tree_attr cfg m q
          (FSNode.dir nR pR sR st false false
            (l1 ++ FSNode.file fn fsz fb fst true :: l2)) depth ws =
        { agg := ⟨(scan_children cfg m q depth sR l1 (init_loop ws)).ls.size,
                  (scan_children cfg m q depth sR l1 (init_loop ws)).ls.size_du,
                  (scan_children cfg m q depth sR l1 (init_loop ws)).ls.files,
                  (scan_children cfg m q depth sR l1 (init_loop ws)).ls.dirs⟩,
          ws := { (scan_children cfg m q depth sR l1 (init_loop ws)).ls.ws with
            warnings := (scan_children cfg m q depth sR l1 (init_loop ws)).ls.ws.warnings + 1 },
          rollup := none }) := by
  refine ⟨?_, ?_, ?_⟩
  · intro cfg m q nR pR sR st scf ch depth ws
    rw [get_tree_attr_dir]
    simp
  · intro cfg m q nR pR sR st ch depth ws
    rw [get_tree_attr_dir]
    simp
  · intro cfg m q nR pR sR fn st fst fsz fb l1 l2 depth ws herr
    rw [get_tree_attr_dir]
    simp only [Bool.false_eq_true, if_false]
    have hstep : scan_children cfg m q depth sR
        (l1 ++ FSNode.file fn fsz fb fst true :: l2) (init_loop ws) =
        { ls := { (scan_children cfg m q depth sR l1 (init_loop ws)).ls with
            f_count := (scan_children cfg m q depth sR l1 (init_loop ws)).ls.f_count + 1 },
          errored := true } := by
      rw [scan_append, herr]
      simp only [Bool.false_eq_true, if_false]
      rw [scan_children_cons]
      simp [scan_step]
    rw [hstep]
    simp

theorem os_error_handling_witness :
    ((scan_children cfgA 999 false 1 (nmOk "/r/d") [] (init_loop scan_init_state)).errored
        = false) ∧
    (get_tree_attr cfgA 999 false
        (FSNode.dir (nmOk "d") (nmOk "/r") (nmOk "/r/d") stA false false
          ([] ++ FSNode.file (nmOk "x") 5 1 stA true :: [])) 1 scan_init_state =
      { agg := ⟨(scan_children cfgA 999 false 1 (nmOk "/r/d") []
            (init_loop scan_init_state)).ls.size,
          (scan_children cfgA 999 false 1 (nmOk "/r/d") []
            (init_loop scan_init_state)).ls.size_du,
          (scan_children cfgA 999 false 1 (nmOk "/r/d") []
            (init_loop scan_init_state)).ls.files,
          (scan_children cfgA 999 false 1 (nmOk "/r/d") []
            (init_loop scan_init_state)).ls.dirs⟩,
        ws := { (scan_children cfgA 999 false 1 (nmOk "/r/d") []
            (init_loop scan_init_state)).ls.ws with
          warnings := (scan_children cfgA 999 false 1 (nmOk "/r/d") []
            (init_loop scan_init_state)).ls.ws.warnings + 1 },
        rollup := none }) :=
  ⟨by rw [scan_children_nil],
    os_error_handling.2.2 cfgA 999 false (nmOk "d") (nmOk "/r") (nmOk "/r/d")
      (nmOk "x") stA stA 5 1 [] [] 1 scan_init_state (by rw [scan_children_nil])⟩

/-- C6: processing a regular non-zero-size file whose name fails strict
UTF-8 decoding never aborts (the `UnicodeError` is caught), appends exactly
one file record — built with the lossy fallback name — to the worker's
stream, and increments the shared warning counter by exactly one. -/
theorem undecodable_name_one_record (cfg : Config) (m : Nat) (q : Bool) (d : Nat)
    (sR fn : RawName) (fsz fb : Nat) (fst : StatInfo) (ls : LoopState)
    (hbad : fn.strict = none) (hsz : 0 < fsz) :
    (scan_step cfg m q d sR (FSNode.file fn fsz fb fst false) ls).errored = false ∧
    (scan_step cfg m q d sR (FSNode.file fn fsz fb fst false) ls).ls.ws.warnings =
      ls.ws.warnings + 1 ∧
    ∃ rec : Record,
      emitted (scan_step cfg m q d sR (FSNode.file fn fsz fb fst false) ls).ls.ws =
        emitted ls.ws ++ [rec] ∧
      rec.rtype = RecType.file ∧ rec.name = fn.lossy ∧ rec.size = fsz := by
  simp only [scan_step, Bool.false_eq_true, if_false]
  unfold file_step
  rw [if_pos hsz]
  cases hp : ls.parent_path with
  | none =>
    cases hs : sR.strict with
    | none =>
      simp only [handle_unicode, hbad, hp, hs, Option.getD_some]
      refine ⟨by simp, by simp, ?_⟩
      refine ⟨{ rtype := RecType.file, size := fsz, size_du := fb * cfg.blocksize,
                owner := fst.uid, group := fst.gid, name := fn.lossy, nlink := fst.nlink,
                ino := fst.ino, parent_path := sR.lossy, extension := pathSuffix fn.lossy,
                file_count := 0, dir_count := 0, mtime := fst.mtime, atime := fst.atime,
                ctime := fst.ctime }, ?_, rfl, rfl, rfl⟩
      simp [emitted, emit_record_emitted]
    | some pp =>
      simp only [handle_unicode, hbad, hp, hs, Option.getD_some]
      refine ⟨by simp, by simp, ?_⟩
      refine ⟨{ rtype := RecType.file, size := fsz, size_du := fb * cfg.blocksize,
                owner := fst.uid, group := fst.gid, name := fn.lossy, nlink := fst.nlink,
                ino := fst.ino, parent_path := pp, extension := pathSuffix fn.lossy,
                file_count := 0, dir_count := 0, mtime := fst.mtime, atime := fst.atime,
                ctime := fst.ctime }, ?_, rfl, rfl, rfl⟩
      simp [emitted, emit_record_emitted]
  | some pp =>
    simp only [handle_unicode, hbad, hp, Option.getD_some]
    refine ⟨by simp, by simp, ?_⟩
    refine ⟨{ rtype := RecType.file, size := fsz, size_du := fb * cfg.blocksize,
              owner := fst.uid, group := fst.gid, name := fn.lossy, nlink := fst.nlink,
              ino := fst.ino, parent_path := pp, extension := pathSuffix fn.lossy,
              file_count := 0, dir_count := 0, mtime := fst.mtime, atime := fst.atime,
              ctime := fst.ctime }, ?_, rfl, rfl, rfl⟩
    simp [emitted, emit_record_emitted]

theorem undecodable_name_one_record_witness :
    (nmBad.strict = none ∧ 0 < 5) ∧
    ((scan_step cfgA 999 false 1 (nmOk "/r/d") (FSNode.file nmBad 5 1 stA false)
        (init_loop scan_init_state)).errored = false ∧
     (scan_step cfgA 999 false 1 (nmOk "/r/d") (FSNode.file nmBad 5 1 stA false)
        (init_loop scan_init_state)).ls.ws.warnings =
       (init_loop scan_init_state).ws.warnings + 1 ∧
     ∃ rec : Record,
       emitted (scan_step cfgA 999 false 1 (nmOk "/r/d")
           (FSNode.file nmBad 5 1 stA false) (init_loop scan_init_state)).ls.ws =
         emitted (init_loop scan_init_state).ws ++ [rec] ∧
       rec.rtype = RecType.file ∧ rec.name = nmBad.lossy ∧ rec.size = 5) :=
  ⟨⟨rfl, by decide⟩,
    undecodable_name_one_record cfgA 999 false 1 (nmOk "/r/d") nmBad 5 1 stA
      (init_loop scan_init_state) rfl (by decide)⟩

/-- C7: when the crawl produced no RootRollup entry for the root
(`root not in sizes`), no root record is written, the run is marked empty,
the backend is queried for its document count, the end-summary record is
not written, and the index is deleted iff that count is zero. -/
theorem empty_crawl_completion (count : Nat) :
    (crawl_finalize none count).rootWritten = false ∧
    (crawl_finalize none count).emptyindex = true ∧
    (crawl_finalize none count).countQueried = true ∧
    ((crawl_finalize none count).indexDeleted = true ↔ count = 0) ∧
    (crawl_finalize none count).endRecordWritten = false := by
  refine ⟨rfl, rfl, rfl, ?_, rfl⟩
  simp [crawl_finalize]

/-- C8 counterexample: the claim asserts that the unrecoverable/critical
abort uses a code different from the other listed codes, but
`exit_app_critical_error` runs `os._exit(1)` — exactly the startup-failure
code 1. -/
theorem critical_exit_code_counterexample :
    exit_app_critical_error_code = startup_failure_exit_code ∧
    exit_app_critical_error_code = 1 :=
  ⟨rfl, rfl⟩

/-- C8 (amended): the process exit status is 0 on clean success, 78 when at
least one recoverable warning occurred, 1 for startup/configuration
failures, and 1 — nonzero and distinct from 0 and 78 but identical to the
startup-failure code — for an unrecoverable/critical abort. -/
theorem exit_code_policy :
    exit_app_code 0 = 0 ∧
    (∀ w : Nat, 0 < w → exit_app_code w = 78) ∧
    startup_failure_exit_code = 1 ∧
    exit_app_critical_error_code = 1 ∧
    exit_app_critical_error_code ≠ 0 ∧
    exit_app_critical_error_code ≠ 78 := by
  refine ⟨rfl, ?_, rfl, rfl, by decide, by decide⟩
  intro w hw
  simp only [exit_app_code, if_pos hw]

theorem exit_code_policy_witness : 0 < 3 ∧ exit_app_code 3 = 78 :=
  ⟨by decide, exit_code_policy.2.1 3 (by decide)⟩

/-- C9 counterexample: the name check is a substring test, not a prefix
test — the explicit index name `elastic-scoutfs-1` lacks the `scoutfs-`
prefix yet is accepted; and the default name generated for path `/data`
is `scoutfsdata-211001`, which does not begin with `scoutfs-` either. -/
theorem index_naming_counterexample :
    scan_index_rejected ("elastic-scoutfs-1".toList) = false ∧
    scoutfs_marker.isPrefixOf ("elastic-scoutfs-1".toList) = false ∧
    default_index_name ("/data".toList) ("211001".toList) = "scoutfsdata-211001".toList ∧
    scoutfs_marker.isPrefixOf (default_index_name ("/data".toList) ("211001".toList)) = false := by
  decide

/-- C9 (amended): `scan` rejects (exit status 1) exactly those non-empty
explicit index names that do not contain `'scoutfs-'` as a substring — a
name containing it anywhere, not necessarily as a prefix, is accepted and
used — and the auto-generated default name is `'scoutfs'` followed by the
sanitised lower-cased path (leading underscores stripped), a dash, and a
timestamp; it begins with `'scoutfs-'` iff that sanitised path is empty or
itself begins with a dash. -/
theorem index_naming_policy :
    (∀ idx : List Char, scan_index_rejected idx = true ↔
      (idx.isEmpty = false ∧ substring_in scoutfs_marker idx = false)) ∧
    (∀ dir_tree ts : List Char,
      scoutfs_marker.isPrefixOf (default_index_name dir_tree ts) = true ↔
        (((dir_tree.map sanitize_char).map Char.toLower).dropWhile (fun c => c = '_') = [] ∨
         ∃ r, ((dir_tree.map sanitize_char).map Char.toLower).dropWhile (fun c => c = '_') =
           '-' :: r)) := by
  constructor
  · intro idx
    simp [scan_index_rejected]
  · intro dir_tree ts
    have hm : scoutfs_marker = "scoutfs".toList ++ ['-'] := by decide
    set stripped :=
      ((dir_tree.map sanitize_char).map Char.toLower).dropWhile (fun c => c = '_') with hs
    rw [ List.isPrefixOf_iff_prefix, default_index_name, hm, ← hs,
      List.append_assoc, List.prefix_append_right_inj]
    cases stripped with
    | nil => simp
    | cons c r =>
      constructor
      · rintro ⟨t, ht⟩
        rw [List.singleton_append, List.cons_append] at ht
        injection ht with h1 h2
        right
        exact ⟨r, by rw [← h1]⟩
      · rintro (h | ⟨r2, hr2⟩)
        · exact absurd h (by simp)
        · injection hr2 with h1 h2
          subst h1
          exact ⟨r ++ '-' :: ts, by simp⟩

/-- C10: an emitted DirectoryRecord counts the directory itself: its
`dir_count` field is one more than the `dirs` component of the aggregate
the frame returns to its parent (and its `file_count` field equals the
returned `files` component); the RootRollup baseline stored at depth 0
satisfies the same relation; and `scan` initialises the shared per-root
directory counter to 1 so that final totals include the crawl root. -/
theorem dir_count_counts_self :
    (∀ (cfg : Config) (m : Nat) (q : Bool) (nR pR sR : RawName) (st : StatInfo)
        (ch : List FSNode) (depth : Nat) (ws : WState),
      0 < depth →
      (scan_children cfg m q depth sR ch (init_loop ws)).errored = false →
      ((scan_children cfg m q depth sR ch (init_loop ws)).ls.files > 0 ∨
        (scan_children cfg m q depth sR ch (init_loop ws)).ls.dirs > 0) →
      ∃ d : Record,
        emitted (get_tree_attr cfg m q (FSNode.dir nR pR sR st false false ch) depth ws).ws =
          emitted (scan_children cfg m q depth sR ch (init_loop ws)).ls.ws ++ [d] ∧
        d.rtype = RecType.directory ∧
        d.dir_count =
          (get_tree_attr cfg m q (FSNode.dir nR pR sR st false false ch) depth ws).agg.dirs + 1 ∧
        d.file_count =
          (get_tree_attr cfg m q (FSNode.dir nR pR sR st false false ch) depth ws).agg.files) ∧
    (∀ (cfg : Config) (m : Nat) (q : Bool) (nR pR sR : RawName) (st : StatInfo)
        (ch : List FSNode) (ws : WState),
      (scan_children cfg m q 0 sR ch (init_loop ws)).errored = false →
      ((scan_children cfg m q 0 sR ch (init_loop ws)).ls.files > 0 ∨
        (scan_children cfg m q 0 sR ch (init_loop ws)).ls.dirs > 0) →
      ∃ d : Record,
        (get_tree_attr cfg m q (FSNode.dir nR pR sR st false false ch) 0 ws).rollup = some d ∧
        d.rtype = RecType.directory ∧
        d.dir_count =
          (get_tree_attr cfg m q (FSNode.dir nR pR sR st false false ch) 0 ws).agg.dirs + 1 ∧
        d.file_count =
          (get_tree_attr cfg m q (FSNode.dir nR pR sR st false false ch) 0 ws).agg.files) ∧
    scan_init_state.dircount = 1 := by
  refine ⟨?_, ?_, rfl⟩
  · intro cfg m q nR pR sR st ch depth ws hdep herr hne
    rw [get_tree_attr_dir]
    simp only [Bool.false_eq_true, if_false, herr]
    obtain ⟨d, hd1, hd2, hd3, hd4, -, -, hagg, -⟩ := frame_finish_emit cfg depth st nR pR
      (scan_children cfg m q depth sR ch (init_loop ws)).ls hne hdep
    exact ⟨d, hd1, hd2, by rw [hagg, hd3], by rw [hagg, hd4]⟩
  · intro cfg m q nR pR sR st ch ws herr hne
    rw [get_tree_attr_dir]
    simp only [Bool.false_eq_true, if_false, herr]
    obtain ⟨d, hd1, hd2, hd3, hd4, -, -, -, hagg⟩ := frame_finish_root cfg st nR pR
      (scan_children cfg m q 0 sR ch (init_loop ws)).ls hne
    exact ⟨d, hd1, hd2, by rw [hagg, hd3], by rw [hagg, hd4]⟩

theorem dir_count_counts_self_witness :
    (0 < 1 ∧
      (scan_children cfgA 999 false 1 (nmOk "/r/f") [fA]
        (init_loop scan_init_state)).errored = false ∧
      ((scan_children cfgA 999 false 1 (nmOk "/r/f") [fA]
          (init_loop scan_init_state)).ls.files > 0 ∨
        (scan_children cfgA 999 false 1 (nmOk "/r/f") [fA]
          (init_loop scan_init_state)).ls.dirs > 0)) ∧
    (∃ d : Record,
      emitted (get_tree_attr cfgA 999 false
          (FSNode.dir (nmOk "f") (nmOk "/r") (nmOk "/r/f") stA false false [fA])
          1 scan_init_state).ws =
        emitted (scan_children cfgA 999 false 1 (nmOk "/r/f") [fA]
          (init_loop scan_init_state)).ls.ws ++ [d] ∧
      d.rtype = RecType.directory ∧
      d.dir_count = (get_tree_attr cfgA 999 false
          (FSNode.dir (nmOk "f") (nmOk "/r") (nmOk "/r/f") stA false false [fA])
          1 scan_init_state).agg.dirs + 1 ∧
      d.file_count = (get_tree_attr cfgA 999 false
          (FSNode.dir (nmOk "f") (nmOk "/r") (nmOk "/r/f") stA false false [fA])
          1 scan_init_state).agg.files) := by
  have herr : (scan_children cfgA 999 false 1 (nmOk "/r/f") [fA]
      (init_loop scan_init_state)).errored = false := by
    simp [fA, scan_children_cons, scan_children_nil, scan_step, file_step,
      init_loop, scan_init_state, handle_unicode, emit_record, cfgA, stA, nmOk]
  have hne : (scan_children cfgA 999 false 1 (nmOk "/r/f") [fA]
      (init_loop scan_init_state)).ls.files > 0 ∨
      (scan_children cfgA 999 false 1 (nmOk "/r/f") [fA]
        (init_loop scan_init_state)).ls.dirs > 0 := by
    left
    simp [fA, scan_children_cons, scan_children_nil, scan_step, file_step,
      init_loop, scan_init_state, handle_unicode, emit_record, cfgA, stA, nmOk]
  exact ⟨⟨by decide, herr, hne⟩,
    dir_count_counts_self.1 cfgA 999 false (nmOk "f") (nmOk "/r") (nmOk "/r/f") stA
      [fA] 1 scan_init_state (by decide) herr hne⟩
